import Mathlib

/-!
Shallow embedding of the `jupyter-download-to-filesystem` ingestion pipeline
(`src/jupyter_remotefs/download.py` and `src/jupyter_remotefs/api/download.py`).

Python `dict`-shaped Contents-API models become the tagged union `Model`;
bytes become `List Nat` (each element a byte value); the tornado HTTP
response is a record of the `Content-Type` header (if present) and the body
bytes.  All string manipulation is re-implemented over `String.data`
(`List Char`) so that every definition reduces in the kernel.
-/

namespace JupyterRemoteFS

/-! ### String helpers (Python `str` operations, over `List Char`) -/

/-- Python `s.split('/')` on the character list: splitting the empty string
yields `[""]`, and separators at either end yield empty pieces. -/
def splitSlashList : List Char → List (List Char)
  | [] => [[]]
  | c :: rest =>
    let r := splitSlashList rest
    if c = '/' then [] :: r
    else
      match r with
      | h :: t => (c :: h) :: t
      | [] => [[c]]

/-- Python `path.split('/')`. -/
def splitSlash (s : String) : List String :=
  (splitSlashList s.data).map fun l => ⟨l⟩

/-- Python `s.endswith(suffix)`. -/
def strEndsWith (s suffix : String) : Bool :=
  suffix.data.reverse.isPrefixOf s.data.reverse

/-- Python `s.startswith(prefixStr)`. -/
def strStartsWith (s prefixStr : String) : Bool :=
  prefixStr.data.isPrefixOf s.data

/-- Python `s.rstrip('/')`: drop every trailing separator. -/
def rstripSlash (s : String) : String :=
  ⟨(s.data.reverse.dropWhile (· = '/')).reverse⟩

/-- Python `s.strip('/')`: drop leading and trailing separators. -/
def stripSlash (s : String) : String :=
  ⟨((s.data.dropWhile (· = '/')).reverse.dropWhile (· = '/')).reverse⟩

/-- Python `s[:-1]`: drop the last character. -/
def dropLastChar (s : String) : String :=
  ⟨s.data.dropLast⟩

/-- Python `os.path.basename(path)` (posix): the part after the last
separator. -/
def basename (p : String) : String :=
  (splitSlash p).getLastD ""

/-- Python `os.path.join(a, b)` (posix, two arguments): `b` wins if it is
absolute, otherwise the parts are joined with exactly one separator. -/
def osPathJoin (a b : String) : String :=
  if strStartsWith b "/" then b
  else if a = "" then b
  else if strEndsWith a "/" then a ++ b
  else a ++ "/" ++ b

/-! ### base64 (Python `base64.b64encode(...).decode('utf8')`) -/

/-- The base64 alphabet, indexed 0–63. -/
def b64Char (n : Nat) : Char :=
  "ABCDEFGHIJKLMNOPQRSTUVWXYZabcdefghijklmnopqrstuvwxyz0123456789+/".data.getD n 'A'

/-- base64 of a byte list, chunked three bytes at a time with `=` padding. -/
def b64encodeList : List Nat → List Char
  | [] => []
  | [a] =>
    let a := a % 256
    [b64Char (a / 4), b64Char (a % 4 * 16), '=', '=']
  | [a, b] =>
    let a := a % 256
    let b := b % 256
    [b64Char (a / 4), b64Char (a % 4 * 16 + b / 16), b64Char (b % 16 * 4), '=']
  | a :: b :: c :: rest =>
    let a := a % 256
    let b := b % 256
    let c := c % 256
    b64Char (a / 4) :: b64Char (a % 4 * 16 + b / 16) ::
      b64Char (b % 16 * 4 + c / 64) :: b64Char (c % 64) :: b64encodeList rest

/-- Python `base64.b64encode(body).decode('utf8')`. -/
def b64encode (bytes : List Nat) : String :=
  ⟨b64encodeList bytes⟩

/-! ### UTF-8 decoding (Python `bytes.decode('utf8')`, strict) -/

/-- Is `b` a UTF-8 continuation byte (`0x80–0xBF`)? -/
def isCont (b : Nat) : Bool := 0x80 ≤ b && b < 0xC0

/-- Strict UTF-8 decoding to code points rendered as `Char`s: rejects stray
or missing continuation bytes, overlong encodings, surrogates, and code
points above `0x10FFFF` — the conditions Python's strict `decode('utf8')`
rejects. -/
def utf8DecodeAux : List Nat → Option (List Char)
  | [] => some []
  | b :: rest =>
    if b < 0x80 then
      (utf8DecodeAux rest).map fun cs => Char.ofNat b :: cs
    else if b < 0xC0 then none
    else if b < 0xE0 then
      match rest with
      | b1 :: rest' =>
        if isCont b1 then
          let cp := (b - 0xC0) * 64 + (b1 - 0x80)
          if cp < 0x80 then none
          else (utf8DecodeAux rest').map fun cs => Char.ofNat cp :: cs
        else none
      | [] => none
    else if b < 0xF0 then
      match rest with
      | b1 :: b2 :: rest' =>
        if isCont b1 && isCont b2 then
          let cp := (b - 0xE0) * 4096 + (b1 - 0x80) * 64 + (b2 - 0x80)
          if cp < 0x800 || (0xD800 ≤ cp && cp ≤ 0xDFFF) then none
          else (utf8DecodeAux rest').map fun cs => Char.ofNat cp :: cs
        else none
      | _ => none
    else if b < 0xF8 then
      match rest with
      | b1 :: b2 :: b3 :: rest' =>
        if isCont b1 && isCont b2 && isCont b3 then
          let cp := (b - 0xF0) * 262144 + (b1 - 0x80) * 4096 +
            (b2 - 0x80) * 64 + (b3 - 0x80)
          if cp < 0x10000 || 0x10FFFF < cp then none
          else (utf8DecodeAux rest').map fun cs => Char.ofNat cp :: cs
        else none
      | _ => none
    else none

/-- Python `body.decode('utf8')` (strict), `none` on a decoding error. -/
def utf8Decode (bytes : List Nat) : Option String :=
  (utf8DecodeAux bytes).map fun cs => ⟨cs⟩

/-! ### Data model

The Python code passes Contents-API models around as `dict`s with a
`"type"` key of `"file"` or `"directory"`; the tagged union below is the
shallow embedding.  A directory's `content` is its ordered child list;
a file's `format`/`mimetype`/`content` are the remaining string fields of
the model dict. -/

inductive Model where
  | file (name path format mimetype content : String)
  | dir (name path : String) (content : List Model)
deriving Repr

mutual

/-- Decidable equality of models (the nested child list prevents
`deriving`). -/
def Model.decEq : (a b : Model) → Decidable (a = b)
  | .file n p f m c, .file n' p' f' m' c' =>
    if h : n = n' ∧ p = p' ∧ f = f' ∧ m = m' ∧ c = c' then
      isTrue (by obtain ⟨h1, h2, h3, h4, h5⟩ := h; rw [h1, h2, h3, h4, h5])
    else
      isFalse (by
        intro he; injection he with h1 h2 h3 h4 h5; exact h ⟨h1, h2, h3, h4, h5⟩)
  | .dir n p cs, .dir n' p' cs' =>
    match Model.decEqList cs cs' with
    | isTrue hcs =>
      if h : n = n' ∧ p = p' then
        isTrue (by obtain ⟨h1, h2⟩ := h; rw [h1, h2, hcs])
      else
        isFalse (by intro he; injection he with h1 h2 _; exact h ⟨h1, h2⟩)
    | isFalse hcs =>
      isFalse (by intro he; injection he with _ _ h3; exact hcs h3)
  | .file .., .dir .. => isFalse (fun h => Model.noConfusion h)
  | .dir .., .file .. => isFalse (fun h => Model.noConfusion h)

/-- Decidable equality of model lists. -/
def Model.decEqList : (a b : List Model) → Decidable (a = b)
  | [], [] => isTrue rfl
  | x :: xs, y :: ys =>
    match Model.decEq x y, Model.decEqList xs ys with
    | isTrue h1, isTrue h2 => isTrue (by rw [h1, h2])
    | isFalse h1, _ => isFalse (by intro he; injection he with ha _; exact h1 ha)
    | _, isFalse h2 => isFalse (by intro he; injection he with _ hb; exact h2 hb)
  | [], _ :: _ => isFalse (fun h => List.noConfusion h)
  | _ :: _, [] => isFalse (fun h => List.noConfusion h)

end

instance : DecidableEq Model := Model.decEq

instance {ε α : Type} [DecidableEq ε] [DecidableEq α] :
    DecidableEq (Except ε α)
  | .ok a, .ok b =>
    if h : a = b then isTrue (by rw [h])
    else isFalse (by intro he; injection he with h1; exact h h1)
  | .error e, .error e' =>
    if h : e = e' then isTrue (by rw [h])
    else isFalse (by intro he; injection he with h1; exact h h1)
  | .ok _, .error _ => isFalse (fun h => Except.noConfusion h)
  | .error _, .ok _ => isFalse (fun h => Except.noConfusion h)

/-- The `model["path"]` field. -/
def Model.path : Model → String
  | .file _ p _ _ _ => p
  | .dir _ p _ => p

/-- Python exceptions raised by the pipeline, plus tornado's `HTTPError`. -/
inductive PyError where
  | valueError
  | typeError
  | unicodeDecodeError
  | badZipFile
  | httpError (code : Nat)
deriving DecidableEq, Repr

/-- The parts of a tornado `HTTPResponse` the pipeline reads: the
`Content-Type` header when present, and the body bytes. -/
structure HTTPResponse where
  contentType : Option String
  body : List Nat

/-- The transport collaborator: one HTTP GET, as a function from URL to
response (request headers do not influence the modelled behavior). -/
def Transport := String → HTTPResponse

/-! ### `download_as_model` (`src/jupyter_remotefs/download.py`, lines 11–57)

The coroutine is embedded as a pure function of the transport; the second
component of the result counts how many `http_client.fetch` calls were
issued, so that "no network request" is expressible. -/

def download_as_model (url : String) (path : String) (transport : Transport) :
    Except PyError Model × Nat :=
  if strEndsWith path "/" then
    -- `raise ValueError('... path cannot end with a slash ("/")')`
    (.error .valueError, 0)
  else
    let filename := basename path
    let http_response := transport url
    match http_response.contentType with
    | some ct =>
      if strStartsWith ct "text" then
        match utf8Decode http_response.body with
        | some content =>
          (.ok (.file filename path "text" "text/plain" content), 1)
        | none => (.error .unicodeDecodeError, 1)
      else
        (.ok (.file filename path "base64" "application/octet-stream"
          (b64encode http_response.body)), 1)
    | none =>
      (.ok (.file filename path "base64" "application/octet-stream"
        (b64encode http_response.body)), 1)

/-! ### Path decomposition (shared by `construct_file_tree` and
`unzip_as_model`, whose loops begin with the same component computation) -/

/-- The component list computed at the top of both per-path loops:
directories (`file_path` ending in `'/'`) decompose `file_path[:-1]` into
slash-suffixed components; files decompose `file_path` the same way but
strip the added slash from the final component. -/
def decomposePath (file_path : String) : List String :=
  if strEndsWith file_path "/" then
    (splitSlash (dropLastChar file_path)).map fun p => p ++ "/"
  else
    let components := (splitSlash file_path).map fun p => p ++ "/"
    components.dropLast ++ (components.getLast? |>.map rstripSlash |>.toList)

/-! ### `construct_file_tree` (`src/jupyter_remotefs/download.py`, lines 60–103)

The Python tree is a `dict` from component (directory keys keep their
trailing `'/'`) to either a nested `dict` or `None` (file marker).
`PTree` embeds it with Python 3.7 `dict` semantics: insertion order is
kept, and inserting an absent key appends it. -/

inductive PTree where
  | mk (entries : List (String × Option PTree))
deriving Repr

/-- The entry list of a tree node. -/
def PTree.entries : PTree → List (String × Option PTree)
  | .mk es => es

mutual

/-- Decidable equality of path trees (nested, so not derivable). -/
def PTree.decEq : (a b : PTree) → Decidable (a = b)
  | .mk es, .mk es' =>
    match PTree.decEqList es es' with
    | isTrue h => isTrue (by rw [h])
    | isFalse h => isFalse (by intro he; injection he with h1; exact h h1)

/-- Decidable equality of optional subtrees. -/
def PTree.decEqOpt : (a b : Option PTree) → Decidable (a = b)
  | none, none => isTrue rfl
  | some t, some t' =>
    match PTree.decEq t t' with
    | isTrue h => isTrue (by rw [h])
    | isFalse h => isFalse (by intro he; injection he with h1; exact h h1)
  | none, some _ => isFalse (fun h => Option.noConfusion h)
  | some _, none => isFalse (fun h => Option.noConfusion h)

/-- Decidable equality of entry lists. -/
def PTree.decEqList :
    (a b : List (String × Option PTree)) → Decidable (a = b)
  | [], [] => isTrue rfl
  | (k, v) :: xs, (k', v') :: ys =>
    match String.decEq k k', PTree.decEqOpt v v', PTree.decEqList xs ys with
    | isTrue h1, isTrue h2, isTrue h3 => isTrue (by rw [h1, h2, h3])
    | isFalse h1, _, _ =>
      isFalse (by
        intro he; injection he with ha _; injection ha with hk _; exact h1 hk)
    | _, isFalse h2, _ =>
      isFalse (by
        intro he; injection he with ha _; injection ha with _ hv; exact h2 hv)
    | _, _, isFalse h3 => isFalse (by intro he; injection he with _ hb; exact h3 hb)
  | [], _ :: _ => isFalse (fun h => List.noConfusion h)
  | _ :: _, [] => isFalse (fun h => List.noConfusion h)

end

instance : DecidableEq PTree := PTree.decEq

/-- Python `component in parent` / `parent[component]`: first (only, since
insertion is guarded by `not in`) value at the key. -/
def PTree.lookup (t : PTree) (key : String) : Option (Option PTree) :=
  (t.entries.find? fun e => e.1 = key).map Prod.snd

/-- Replace the value at `key`, keeping `dict` order; appends when absent
(Python `parent[component] = v`). -/
def PTree.insert (t : PTree) (key : String) (v : Option PTree) : PTree :=
  if (t.entries.find? fun e => e.1 = key).isSome then
    .mk (t.entries.map fun e => if e.1 = key then (e.1, v) else e)
  else
    .mk (t.entries ++ [(key, v)])

/-- The inner `for component in components` loop of `construct_file_tree`,
acting on the subtree the Python code's `parent` reference points into.
A slash-suffixed key always maps to a nested `dict` in the source (file
keys never carry the separator), so a file marker found at a directory key
is treated as an empty `dict`; and a file component is always the final
component of a decomposition, so the walk stops after placing its `None`
marker. -/
def PTree.walk (t : PTree) : List String → PTree
  | [] => t
  | component :: rest =>
    if stripSlash component = "" then
      -- ignore double "/" characters
      t.walk rest
    else if strEndsWith component "/" then
      let sub :=
        match t.lookup component with
        | some (some subtree) => subtree
        | _ => PTree.mk []
      t.insert component (some (sub.walk rest))
    else
      if (t.lookup component).isSome then t
      else t.insert component none

/-- `construct_file_tree(file_paths)`: fold the per-path walk over the
input list, starting from the empty `dict`. -/
def construct_file_tree (file_paths : List String) : PTree :=
  file_paths.foldl (fun tree file_path => tree.walk (decomposePath file_path))
    (.mk [])

/-! ### `wrap_in_parent_models` (`src/jupyter_remotefs/download.py`,
lines 106–148)

The Python loop builds one ancestor dict per leading component, appending
each to the previous one's `content`, and finally appends `model` to the
chain's LAST dict — which is what the function returns (`return parent`
with `parent` bound to the most recently created child).  The earlier
ancestors are reachable only from each other, not from the returned value,
so the observable result is the deepest ancestor alone; the fold below
threads exactly the data that survives: the latest component name and its
accumulated path. -/

def wrap_in_parent_models (model : Model) : Except PyError Model :=
  if strEndsWith model.path "/" then
    -- `raise ValueError('path cannot end with slash ("/")')`
    .error .valueError
  else
    let parent_components := (splitSlash model.path).dropLast
    let parent : Option (String × String) :=
      parent_components.foldl
        (fun parent component =>
          some (component,
            match parent with
            | some (_, ppath) => ppath ++ "/" ++ component
            | none => component))
        none
    match parent with
    | some (pname, ppath) => .ok (.dir pname ppath [model])
    | none =>
      -- path actually had no upper components
      .ok model

/-! ### `unzip_as_model` (`src/jupyter_remotefs/download.py`, lines 151–235)

The zip archive is embedded as its entry list in archive order, each entry
carrying its name and decompressed bytes (`ZipFile.namelist()` /
`ZipFile.read(name)`).  Turning the base64-decoded body bytes into that
entry list is the `zipfile` library's job, passed in as the `parseZip`
collaborator (`none` = `BadZipFile`). -/

/-- A zip archive: entry names in archive order with decompressed data. -/
def Zip := List (String × List Nat)

/-- `zip_file.read(file_path)`: data of the named entry.  The walk only
reads names obtained from the entry list itself, so the missing-name
default is never observable. -/
def zipRead (zf : Zip) (name : String) : List Nat :=
  match (List.find? (fun e => e.1 = name) zf) with
  | some e => e.2
  | none => []

/-- Index of the LAST child whose `name` matches, mirroring the inner
`for child in parent['content']` search: the loop's `continue` only skips
to the next candidate, so `parent` is rebound at every match and ends at
the final one. -/
def lastMatchIdx (children : List Model) (nm : String) : Option Nat :=
  children.foldl
    (fun (acc : Option Nat × Nat) child =>
      match child with
      | .file n _ _ _ _ => (if n = nm then some acc.2 else acc.1, acc.2 + 1)
      | .dir n _ _ => (if n = nm then some acc.2 else acc.1, acc.2 + 1))
    (none, 0)
  |>.1

/-- The per-entry component walk of `unzip_as_model`, returning the updated
subtree rooted at the Python code's current `parent`.  For a directory
component: the search loop leaves `parent` at the last name match (or
unmoved), then — because its `continue` never escapes to the outer loop —
control always falls through to create a fresh directory child under that
`parent` and descend into it.  All later mutations happen inside the
descended-into child, so the recursion can build it before appending. -/
def unzipWalk (node : Model) (fileContent : String) : List String → Model
  | [] => node
  | component :: rest =>
    if stripSlash component = "" then
      -- ignore double "/" characters
      unzipWalk node fileContent rest
    else
      match node with
      | .file n p f m c => .file n p f m c  -- guarded by `assert parent['type'] == "directory"`
      | .dir n p children =>
        if strEndsWith component "/" then
          let cname := rstripSlash component
          match lastMatchIdx children cname with
          | some i =>
            -- `parent` now points at the matched child, and the fall-through
            -- create-a-new-child code runs against it: a FRESH duplicate
            -- directory named `cname` is appended inside the match and the
            -- walk descends into that duplicate.  (Were the matched child a
            -- file, the source would raise `AttributeError` appending to its
            -- string `content`; no claim reaches that case, and the file is
            -- left unchanged here.)
            .dir n p (children.mapIdx fun j child =>
              if j = i then
                match child with
                | .dir cn cp ccs =>
                  .dir cn cp (ccs ++
                    [unzipWalk (.dir cname (osPathJoin cp cname) [])
                      fileContent rest])
                | f => f
              else child)
          | none =>
            .dir n p (children ++
              [unzipWalk (.dir cname (osPathJoin p cname) []) fileContent rest])
        else
          let file_name := rstripSlash component
          .dir n p (children ++
            [.file file_name (osPathJoin p file_name) "base64"
              "application/octet-stream" fileContent])

/-- The `for file_path in zip_file.namelist()` loop: each entry's
decomposition is walked from the top-level model (`parent = tree`), with
the entry's decompressed bytes base64-encoded for the file component. -/
def unzipTree (zf : Zip) (model_path : String) : Model :=
  let tree : Model := .dir (basename model_path) model_path []
  zf.foldl
    (fun tree entry =>
      unzipWalk tree (b64encode (zipRead zf entry.1)) (decomposePath entry.1))
    tree

/-- `unzip_as_model(zipped_model, model_path)`: format check, base64 +
`ZipFile` parse (the `parseZip` collaborator), the entry walk, and the
final `wrap_in_parent_models`. -/
def unzip_as_model (parseZip : String → Option Zip) (zipped_model : Model)
    (model_path : String) : Except PyError Model :=
  match zipped_model with
  | .dir _ _ _ =>
    -- a directory model has no `'format'` key: `zipped_model['format']`
    -- raises `KeyError`; no claim reaches this case (kept total via the
    -- same `TypeError` family as the guard below)
    .error .typeError
  | .file _ _ format _ content =>
    if format ≠ "base64" then
      -- `raise TypeError("... model format must be base64")`
      .error .typeError
    else
      match parseZip content with
      | none => .error .badZipFile
      | some zf => wrap_in_parent_models (unzipTree zf model_path)

/-! ### `RemoteFSDownloadHandler`
(`src/jupyter_remotefs/api/download.py`) -/

/-- One `self.contents_manager.save(model, path=path)` call, in order. -/
structure SaveCall where
  model : Model
  path : String
deriving Repr, DecidableEq

mutual

/-- `save_unzipped_model(model)`: for a directory, detach the child list
(`del model["content"]`), save the content-free directory, then recurse
into each child in stored order; for a file, save it directly.  The result
is the ordered log of storage-backend calls. -/
def save_unzipped_model : Model → List SaveCall
  | .dir name path children =>
    ⟨.dir name path [], path⟩ :: saveChildren children
  | .file name path format mimetype content =>
    [⟨.file name path format mimetype content, path⟩]

/-- The `for child in children` recursion of `save_unzipped_model`. -/
def saveChildren : List Model → List SaveCall
  | [] => []
  | child :: rest => save_unzipped_model child ++ saveChildren rest

end

/-- The request body fields the handler reads (`remote_url` and
`local_path` present — a missing one is the `MalformedRequest` boundary
error, upstream of everything modelled here; `unzip? = none` embeds an
absent `unzip` key). -/
structure Request where
  remote_url : String
  local_path : String
  unzip? : Option String

/-- `RemoteFSDownloadHandler.post`: resolve the unzip mode (absent key
defaults to `"none"`, `"auto"` resolves on the `.zip` URL suffix), then
dispatch.  Returns the ordered storage-save log on success, and counts the
transport fetches issued (second component). -/
def post (req : Request) (transport : Transport)
    (parseZip : String → Option Zip) : Except PyError (List SaveCall) × Nat :=
  let unzip0 := match req.unzip? with
    | some u => u
    | none => "none"
  let unzip :=
    if unzip0 = "auto" then
      if strEndsWith req.remote_url ".zip" then "zip" else "none"
    else unzip0
  if unzip = "none" then
    match download_as_model req.remote_url req.local_path transport with
    | (.ok model, n) => (.ok [⟨model, req.local_path⟩], n)
    | (.error e, n) => (.error e, n)
  else if unzip = "zip" then
    match download_as_model req.remote_url (req.local_path ++ ".zip")
        transport with
    | (.ok zipped_model, n) =>
      match unzip_as_model parseZip zipped_model req.local_path with
      | .ok model => (.ok (save_unzipped_model model), n)
      | .error e => (.error e, n)
    | (.error e, n) => (.error e, n)
  else
    -- `raise web.HTTPError(400, ... "invalid unzip value ...")`, before
    -- any `download_as_model` call
    (.error (.httpError 400), 0)

/-! ## Claims -/

/-- C1: evaluation of the extractor at the claim's sample archive
`{"a/", "a/x", "a/y", "b/z"}` (all entries empty), mount `"root"`.  The
root does have the two children `a` and `b`, but `a`'s children are NOT
the files `x` and `y`: they are two sibling directories both named `"a"`
(path `"root/a/a"`), because the dedup search's `continue` never escapes
the outer component walk — contradicting both the claim and the source's
own comment ("don't create directories that already exist"). -/
theorem extract_sample_archive_duplicates_dirs :
    wrap_in_parent_models
      (unzipTree [("a/", []), ("a/x", []), ("a/y", []), ("b/z", [])] "root") =
      .ok (.dir "root" "root"
        [.dir "a" "root/a"
          [.dir "a" "root/a/a"
            [.file "x" "root/a/a/x" "base64" "application/octet-stream" ""],
           .dir "a" "root/a/a"
            [.file "y" "root/a/a/y" "base64" "application/octet-stream" ""]],
         .dir "b" "root/b"
          [.file "z" "root/b/z" "base64" "application/octet-stream" ""]]) := by
  decide

/-- C2: at the failing input `path = "a/b/c"`, `wrap_in_parent_models`
returns the DEEPEST synthesized ancestor (`name "b"`, `path "a/b"`), not
the outermost root `"a"`: the chain's root is built but only the last
`parent` binding is returned, so the root directory is discarded. -/
theorem wrap_two_ancestors_returns_deepest :
    wrap_in_parent_models (.file "c" "a/b/c" "text" "text/plain" "hi") =
      .ok (.dir "b" "a/b" [.file "c" "a/b/c" "text" "text/plain" "hi"]) ∧
    Model.dir "b" "a/b" [.file "c" "a/b/c" "text" "text/plain" "hi"] ≠
      Model.dir "a" "a" [.dir "b" "a/b" [.file "c" "a/b/c" "text" "text/plain" "hi"]] := by
  decide

/-- C4: persisting `root{children:[dirA{children:[fileX]}, fileY]}` produces
exactly four storage saves in depth-first, parent-before-children order,
each directory saved with its child list detached before its children. -/
theorem save_unzipped_model_traversal_order
    (nR pR nA pA nx px fx mx cx ny py fy my cy : String) :
    save_unzipped_model
      (.dir nR pR [.dir nA pA [.file nx px fx mx cx], .file ny py fy my cy]) =
      [⟨.dir nR pR [], pR⟩, ⟨.dir nA pA [], pA⟩,
       ⟨.file nx px fx mx cx, px⟩, ⟨.file ny py fy my cy, py⟩] := by
  rfl

/-- C4 witness: the traversal order at a concrete tree. -/
theorem save_unzipped_model_traversal_order_witness :
    save_unzipped_model
      (.dir "r" "r" [.dir "A" "r/A" [.file "x" "r/A/x" "base64" "m" "cx"],
        .file "y" "r/y" "base64" "m" "cy"]) =
      [⟨.dir "r" "r" [], "r"⟩, ⟨.dir "A" "r/A" [], "r/A"⟩,
       ⟨.file "x" "r/A/x" "base64" "m" "cx", "r/A/x"⟩,
       ⟨.file "y" "r/y" "base64" "m" "cy", "r/y"⟩] :=
  save_unzipped_model_traversal_order "r" "r" "A" "r/A" "x" "r/A/x" "base64"
    "m" "cx" "y" "r/y" "base64" "m" "cy"

/-- C9: walking a directory component whose name already exists among the
current children appends a fresh duplicate directory INSIDE the matched
child and descends into the duplicate: entries `["a/", "a/x", "a/y"]` at
mount `"root"` yield a root whose single child `a` (path `"root/a"`)
contains two sibling directories both named `"a"` (path `"root/a/a"`),
holding files `x` and `y` respectively. -/
theorem unzip_existing_dir_creates_duplicate_child (d1 d2 : List Nat) :
    unzipTree [("a/", []), ("a/x", d1), ("a/y", d2)] "root" =
      .dir "root" "root"
        [.dir "a" "root/a"
          [.dir "a" "root/a/a"
            [.file "x" "root/a/a/x" "base64" "application/octet-stream"
              (b64encode d1)],
           .dir "a" "root/a/a"
            [.file "y" "root/a/a/y" "base64" "application/octet-stream"
              (b64encode d2)]]] := by
  rfl

/-- C9 witness: entry data `[1]` and `[2]`. -/
theorem unzip_existing_dir_creates_duplicate_child_witness :
    unzipTree [("a/", []), ("a/x", [1]), ("a/y", [2])] "root" =
      .dir "root" "root"
        [.dir "a" "root/a"
          [.dir "a" "root/a/a"
            [.file "x" "root/a/a/x" "base64" "application/octet-stream"
              "AQ=="],
           .dir "a" "root/a/a"
            [.file "y" "root/a/a/y" "base64" "application/octet-stream"
              "Ag=="]]] :=
  unzip_existing_dir_creates_duplicate_child [1] [2]

/-- C3: `download_as_model` decides the record's encoding once from the
declared content type: a present `Content-Type` beginning with `"text"`
gives a `"text"`-format record with mimetype `"text/plain"` and the UTF-8
decoding of the body; any other case — a non-`text` content type or an
absent header — gives a `"base64"`-format record with mimetype
`"application/octet-stream"` and the base64 transport-encoding of the raw
body bytes. -/
theorem download_encoding_decision (url path : String) (transport : Transport)
    (hpath : strEndsWith path "/" = false) :
    (∀ ct s, (transport url).contentType = some ct →
      strStartsWith ct "text" = true →
      utf8Decode (transport url).body = some s →
      download_as_model url path transport =
        (.ok (.file (basename path) path "text" "text/plain" s), 1)) ∧
    ((match (transport url).contentType with
      | some ct => strStartsWith ct "text" = false
      | none => True) →
      download_as_model url path transport =
        (.ok (.file (basename path) path "base64" "application/octet-stream"
          (b64encode (transport url).body)), 1)) := by
  constructor
  · intro ct s hct htext hdec
    unfold download_as_model
    rw [hpath]
    simp only [Bool.false_eq_true, if_false, hct, htext, hdec, if_true]
  · intro hbin
    unfold download_as_model
    rw [hpath]
    simp only [Bool.false_eq_true, if_false]
    cases hct : (transport url).contentType with
    | some ct =>
      rw [hct] at hbin
      simp only [hct, hbin, Bool.false_eq_true, if_false]
    | none => simp only [hct]

/-- C3 witness: a `Content-Type: text/plain` response with body bytes
`[104, 105]` (`"hi"`). -/
theorem download_encoding_decision_witness :
    download_as_model "u" "dir/f"
      (fun _ => ⟨some "text/plain", [104, 105]⟩) =
      (.ok (.file "f" "dir/f" "text" "text/plain" "hi"), 1) :=
  (download_encoding_decision "u" "dir/f"
    (fun _ => ⟨some "text/plain", [104, 105]⟩) (by decide)).1
    "text/plain" "hi" rfl (by decide) (by decide)

/-- C5: a target path ending in the separator is rejected with the path
error (`ValueError`) by both `download_as_model` — before any transport
fetch, witnessed by the fetch count 0 — and `wrap_in_parent_models`. -/
theorem trailing_separator_rejected (url path : String)
    (transport : Transport) (model : Model)
    (hpath : strEndsWith path "/" = true) (hmodel : model.path = path) :
    download_as_model url path transport = (.error .valueError, 0) ∧
    wrap_in_parent_models model = .error .valueError := by
  unfold download_as_model wrap_in_parent_models
  rw [hmodel, hpath]
  simp

/-- C5 witness: the path `"a/"`. -/
theorem trailing_separator_rejected_witness :
    download_as_model "u" "a/" (fun _ => ⟨none, []⟩) =
      (.error .valueError, 0) ∧
    wrap_in_parent_models (.file "" "a/" "text" "text/plain" "x") =
      .error .valueError :=
  trailing_separator_rejected "u" "a/" (fun _ => ⟨none, []⟩)
    (.file "" "a/" "text" "text/plain" "x") (by decide) rfl

/-- C6: an unzip mode outside `{"none", "zip", "auto"}` makes the handler
fail with `HTTPError 400` (the invalid-mode error) and issue zero
transport fetches. -/
theorem invalid_unzip_mode_no_fetch (req : Request) (transport : Transport)
    (parseZip : String → Option Zip) (u : String) (hu : req.unzip? = some u)
    (h1 : u ≠ "none") (h2 : u ≠ "zip") (h3 : u ≠ "auto") :
    post req transport parseZip = (.error (.httpError 400), 0) := by
  unfold post
  rw [hu]
  simp [h1, h2, h3]

/-- C6 witness: the mode `"banana"`. -/
theorem invalid_unzip_mode_no_fetch_witness :
    post ⟨"u", "p", some "banana"⟩ (fun _ => ⟨none, []⟩) (fun _ => none) =
      (.error (.httpError 400), 0) :=
  invalid_unzip_mode_no_fetch ⟨"u", "p", some "banana"⟩ (fun _ => ⟨none, []⟩)
    (fun _ => none) "banana" rfl (by decide) (by decide) (by decide)

/-- A string with no separator never ends with one. -/
lemma noslash_strEndsWith (s : String) (h : '/' ∉ s.data) :
    strEndsWith s "/" = false := by
  unfold strEndsWith
  cases hrev : s.data.reverse with
  | nil => rfl
  | cons x xs =>
    have hx : x ∈ s.data := by
      rw [← List.mem_reverse, hrev]
      exact List.mem_cons_self x xs
    have hne : ¬('/' = x) := fun he => h (he ▸ hx)
    simp [List.isPrefixOf, hne]

/-- Splitting a separator-free character list yields the singleton list. -/
lemma splitSlashList_no_slash (l : List Char) (h : '/' ∉ l) :
    splitSlashList l = [l] := by
  induction l with
  | nil => rfl
  | cons c rest ih =>
    have hc : ¬(c = '/') := fun he => h (he ▸ List.mem_cons_self c rest)
    have hrest : '/' ∉ rest := fun hm => h (List.mem_cons_of_mem c hm)
    simp only [splitSlashList, ih hrest, hc, if_false]

/-- C7: for a record whose path contains no separator, the ancestor chain
is empty and `wrap_in_parent_models` returns the record unchanged. -/
theorem wrap_no_separator_identity (model : Model)
    (h : '/' ∉ (Model.path model).data) :
    wrap_in_parent_models model = .ok model := by
  unfold wrap_in_parent_models
  rw [noslash_strEndsWith _ h]
  have hsplit : splitSlash model.path = [model.path] := by
    unfold splitSlash
    rw [splitSlashList_no_slash _ h]
    rfl
  rw [hsplit]
  rfl

/-- C7 witness: the separator-free path `"foo"`. -/
theorem wrap_no_separator_identity_witness :
    wrap_in_parent_models (.file "foo" "foo" "text" "text/plain" "x") =
      .ok (.file "foo" "foo" "text" "text/plain" "x") :=
  wrap_no_separator_identity (.file "foo" "foo" "text" "text/plain" "x")
    (by decide)

/-- The decomposed components of a path with the empty (all-separator)
components removed: two paths with equal `cleanComps` differ only in
skipped components, e.g. in doubled separators. -/
def cleanComps (p : String) : List String :=
  (decomposePath p).filter fun c => !(stripSlash c == "")

/-- The tree walk ignores components whose separator-strip is empty. -/
lemma ptree_walk_filter (comps : List String) (t : PTree) :
    t.walk comps = t.walk (comps.filter fun c => !(stripSlash c == "")) := by
  induction comps generalizing t with
  | nil => rfl
  | cons c rest ih =>
    by_cases hc : stripSlash c = ""
    · have hfc : (!(stripSlash c == "")) = false := by simp [hc]
      rw [List.filter_cons, hfc]
      simp only [Bool.false_eq_true, if_false]
      rw [show PTree.walk t (c :: rest) = PTree.walk t rest from by
        simp [PTree.walk, hc]]
      exact ih t
    · have hfc : (!(stripSlash c == "")) = true := by simp [hc]
      rw [List.filter_cons, hfc]
      simp only [if_true]
      simp only [PTree.walk, hc, if_false]
      by_cases he : strEndsWith c "/" = true
      · simp only [he, if_true]
        rw [ih]
      · simp only [he, Bool.false_eq_true, if_false]

/-- Equal cleaned decompositions give equal folds from any starting tree. -/
lemma construct_fold_congr (l₁ : List String) :
    ∀ (l₂ : List String) (t : PTree), l₁.map cleanComps = l₂.map cleanComps →
    l₁.foldl (fun tree fp => tree.walk (decomposePath fp)) t =
    l₂.foldl (fun tree fp => tree.walk (decomposePath fp)) t := by
  induction l₁ with
  | nil =>
    intro l₂ t h
    cases l₂ with
    | nil => rfl
    | cons q qs => simp at h
  | cons p ps ih =>
    intro l₂ t h
    cases l₂ with
    | nil => simp at h
    | cons q qs =>
      simp only [List.map_cons, List.cons.injEq] at h
      obtain ⟨hpq, hrest⟩ := h
      simp only [List.foldl_cons]
      rw [show t.walk (decomposePath p) = t.walk (decomposePath q) from by
        unfold cleanComps at hpq
        rw [ptree_walk_filter (decomposePath p) t, hpq,
          ← ptree_walk_filter (decomposePath q) t]]
      exact ih qs _ hrest

/-- C8: two path lists whose decompositions agree after dropping empty
components (as arise from doubled separators) build identical trees: an
empty component contributes no node and does not affect its siblings. -/
theorem construct_file_tree_skips_empty_components (l₁ l₂ : List String)
    (h : l₁.map cleanComps = l₂.map cleanComps) :
    construct_file_tree l₁ = construct_file_tree l₂ := by
  unfold construct_file_tree
  exact construct_fold_congr l₁ l₂ _ h

/-- C8 witness: `["foo//bar"]` versus `["foo/bar"]`. -/
theorem construct_file_tree_skips_empty_components_witness :
    construct_file_tree ["foo//bar"] = construct_file_tree ["foo/bar"] :=
  construct_file_tree_skips_empty_components ["foo//bar"] ["foo/bar"]
    (by decide)

/-- C10 counterexample: with the `unzip` field omitted and target
`"a/b"`, the handler saves the fetched FILE record itself — no ancestor
directory is synthesized or saved, although `wrap_in_parent_models` on
that record would have produced the directory record `"a"`. -/
theorem post_omitted_unzip_counterexample :
    post ⟨"u", "a/b", none⟩ (fun _ => ⟨none, [5]⟩) (fun _ => none) =
      (.ok [⟨.file "b" "a/b" "base64" "application/octet-stream" "BQ==",
        "a/b"⟩], 1) ∧
    wrap_in_parent_models
      (.file "b" "a/b" "base64" "application/octet-stream" "BQ==") =
      .ok (.dir "a" "a"
        [.file "b" "a/b" "base64" "application/octet-stream" "BQ=="]) ∧
    Model.file "b" "a/b" "base64" "application/octet-stream" "BQ==" ≠
      Model.dir "a" "a"
        [.file "b" "a/b" "base64" "application/octet-stream" "BQ=="] := by
  decide

/-- C10 (amended): a request with the `unzip` field omitted behaves
exactly as mode `"none"`: it fetches the target path directly and saves
the fetched record as-is — no ancestor wrapping, no extraction. -/
theorem post_omitted_unzip_saves_unwrapped (req : Request)
    (transport : Transport) (parseZip : String → Option Zip)
    (h : req.unzip? = none) :
    post req transport parseZip =
      post ⟨req.remote_url, req.local_path, some "none"⟩ transport parseZip ∧
    (∀ m n,
      download_as_model req.remote_url req.local_path transport = (.ok m, n) →
      post req transport parseZip = (.ok [⟨m, req.local_path⟩], n)) := by
  constructor
  · simp only [post, h]
  · intro m n hdl
    simp only [post, h, hdl]
    simp

/-- C10 witness: omitted `unzip`, target `"a/b"`, a binary body `[5]`. -/
theorem post_omitted_unzip_saves_unwrapped_witness :
    post ⟨"u", "a/b", none⟩ (fun _ => ⟨none, [5]⟩) (fun _ => none) =
      (.ok [⟨.file "b" "a/b" "base64" "application/octet-stream" "BQ==",
        "a/b"⟩], 1) :=
  (post_omitted_unzip_saves_unwrapped ⟨"u", "a/b", none⟩
    (fun _ => ⟨none, [5]⟩) (fun _ => none) rfl).2
    (.file "b" "a/b" "base64" "application/octet-stream" "BQ==") 1 (by decide)

end JupyterRemoteFS
